import Mathlib

/-!
Shallow embedding of the kvtools/dynamodb store (src/dynamodb.go) for checking
the natural-language specification against the code.

Modelling conventions, fixed once for the whole file:

* The store is modelled per key: all claimed operations (Put, Get, Exists,
  AtomicPut, AtomicDelete, the lock) touch exactly one partition key, so the
  backend state relevant to an operation is the `Option Item` stored under
  that key (`none` = physically absent).
* Time is an integer Unix-seconds clock passed explicitly (`now : Int`);
  `time.Now().Add(ttl).Unix()` becomes `now + ttl`.
* `base64.StdEncoding` round-trips every byte string, and no code path
  inspects the encoded form, so the encoding is modelled as the identity on
  the payload string (`encodedValue` holds the payload itself).
* DynamoDB calls are atomic one-state transitions.  The non-atomic gap
  between the consistent `GetItem` pre-read and the subsequent
  `UpdateItem`/`DeleteItem` inside AtomicPut/AtomicDelete is modelled by
  giving those operations two snapshots: `readState` (what the Get saw) and
  `writeState` (what the conditional write executes against).  Sequential,
  race-free execution is the special case `readState = writeState`.
* `ConditionExpression` strings are reified as the small inductive
  `CondExp`; the DynamoDB evaluation rules (an attribute reference on a
  missing attribute or item makes the comparison false,
  `attribute_not_exists` is true on a missing item) are `evalCond`.
-/

namespace Ddb

/-- A physically stored DynamoDB item for one partition key
(attributes `version`, `encoded_value`, `expiration_time`; dynamodb.go
lines 38-43).  Optional fields model absent attributes. -/
structure Item where
  revision : Nat
  encodedValue : Option String
  expirationTime : Option Int
  deriving Repr, DecidableEq

/-- store.KVPair as produced by decodeItem (key field omitted: the per-key
model fixes the key). -/
structure KVPair where
  value : String
  lastIndex : Nat
  deriving Repr, DecidableEq

/-- store.WriteOptions: the TTL duration in seconds (Go: time.Duration).
A non-positive TTL is ignored by the code (`opts.TTL > 0` guard). -/
structure WriteOptions where
  ttl : Int
  deriving Repr, DecidableEq

/-- store.ReadOptions. -/
structure ReadOptions where
  consistent : Bool
  deriving Repr, DecidableEq

/-- Errors surfaced by the AWS SDK call itself. -/
inductive DdbError where
  /-- dynamodb.ErrCodeConditionalCheckFailedException. -/
  | conditionalCheckFailed
  /-- Request rejected before execution (e.g. an expression attribute value
  referenced by the ConditionExpression is not bound). -/
  | validationException
  /-- Any other opaque service failure, tagged by a code. -/
  | serviceError (code : Nat)
  deriving Repr, DecidableEq

/-- Errors returned by the store layer (store.ErrKeyNotFound etc. plus the
package errors of dynamodb.go lines 50-59; opaque backend failures are
passed through unmapped as `backend`). -/
inductive StoreError where
  | keyNotFound
  | keyExists
  | keyModified
  | deleteTreeTimeout
  | lockAcquireCancelled
  | backend (e : DdbError)
  deriving Repr, DecidableEq

/-- isItemExpired (dynamodb.go lines 861-869): no `expiration_time`
attribute means never expired; otherwise expired iff the stored timestamp
is strictly before now (`time.Unix(ttl, 0).Before(time.Now())`). -/
def isItemExpired (now : Int) (item : Item) : Bool :=
  match item.expirationTime with
  | none => false
  | some t => t < now

/-- decodeItem (dynamodb.go lines 871-901): a missing `encoded_value`
attribute decodes to the empty payload; `LastIndex` is the `version`
attribute.  (Base64 decoding of a value this code wrote never fails and is
modelled as the identity.) -/
def decodeItem (item : Item) : KVPair :=
  { value := item.encodedValue.getD "", lastIndex := item.revision }

/-- Reified ConditionExpression strings built by the code. -/
inductive CondExp where
  /-- AtomicPut, lines 384-385: `version = :lastRevision AND
  (attribute_not_exists(expiration_time) OR (attribute_exists(expiration_time)
  AND expiration_time > :timeNow))`. -/
  | revAndNotExpired (rev : Nat) (now : Int)
  /-- AtomicDelete, line 436: `version = :lastRevision`. -/
  | revEq (rev : Nat)
  deriving Repr, DecidableEq

/-- DynamoDB evaluation of a ConditionExpression against the current item
(an attribute comparison on a missing item or attribute is false;
`attribute_not_exists` is true when the item is missing). -/
def evalCond : CondExp → Option Item → Bool
  | .revAndNotExpired r now, some it =>
      it.revision == r &&
        (match it.expirationTime with
         | none => true
         | some t => now < t)
  | .revAndNotExpired _ _, none => false
  | .revEq r, some it => it.revision == r
  | .revEq _, none => false

/-- The UpdateItem request both Put and AtomicPut build: an update
expression `ADD version :incr` plus optional `SET encoded_value = :encv`
and `SET expiration_time = :ttl` clauses, plus an optional
ConditionExpression. -/
structure UpdateReq where
  setValue : Option String
  setTTL : Option Int
  cond : Option CondExp
  deriving Repr, DecidableEq

/-- Applying the update expression `ADD version :incr [SET ...]`: `ADD` on
a missing item/attribute treats the counter as 0, so the item is created
with version 1; `SET` clauses overwrite their attribute, attributes not
mentioned are left untouched. -/
def updateItemApply (cur : Option Item) (setValue : Option String) (setTTL : Option Int) : Item :=
  match cur with
  | none => { revision := 1, encodedValue := setValue, expirationTime := setTTL }
  | some it =>
      { revision := it.revision + 1,
        encodedValue := match setValue with | some v => some v | none => it.encodedValue,
        expirationTime := match setTTL with | some t => some t | none => it.expirationTime }

/-- Executing an UpdateItem request against the current item: if a
ConditionExpression is present and evaluates false the service fails with
ConditionalCheckFailedException and the item is untouched; otherwise the
update applies and (ReturnValues = ALL_NEW) the post-write item is
returned. -/
def execUpdate (req : UpdateReq) (cur : Option Item) : Except DdbError Item × Option Item :=
  match req.cond with
  | some c =>
      if evalCond c cur then
        (Except.ok (updateItemApply cur req.setValue req.setTTL),
         some (updateItemApply cur req.setValue req.setTTL))
      else (Except.error DdbError.conditionalCheckFailed, cur)
  | none =>
      (Except.ok (updateItemApply cur req.setValue req.setTTL),
       some (updateItemApply cur req.setValue req.setTTL))

/-- Lines 126-130 / 358-362: the `SET encoded_value` clause is included
iff the provided value is non-empty. -/
def putSetValue (value : String) : Option String :=
  if value.length > 0 then some value else none

/-- Lines 133-137 / 365-369: the `SET expiration_time` clause is included
iff write options carry a positive TTL; the stored timestamp is
`time.Now().Add(opts.TTL).Unix()` = now + ttl. -/
def putSetTTL (now : Int) (opts : Option WriteOptions) : Option Int :=
  match opts with
  | some o => if 0 < o.ttl then some (now + o.ttl) else none
  | none => none

/-- Put (dynamodb.go lines 114-156): an unconditional UpdateItem
`ADD version :incr [SET ...]`; returns the new per-key state. -/
def Put (now : Int) (state : Option Item) (value : String) (opts : Option WriteOptions) :
    Option Item :=
  (execUpdate { setValue := putSetValue value, setTTL := putSetTTL now opts, cond := none }
    state).2

/-- Get (dynamodb.go lines 158-180): absent item or logically expired item
yields store.ErrKeyNotFound, otherwise the decoded pair. -/
def Get (now : Int) (state : Option Item) : Except StoreError KVPair :=
  match state with
  | none => Except.error StoreError.keyNotFound
  | some it =>
      if isItemExpired now it then Except.error StoreError.keyNotFound
      else Except.ok (decodeItem it)

/-- Exists (dynamodb.go lines 207-231): false for an absent or logically
expired item, true otherwise. -/
def existsKey (now : Int) (state : Option Item) : Bool :=
  match state with
  | none => false
  | some it => !isItemExpired now it

/-- The GetItem request shape as far as read consistency is concerned:
`consistentRead = none` models a GetItemInput whose ConsistentRead field is
not set at all (DynamoDB then performs an eventually consistent read). -/
structure GetItemReq where
  consistentRead : Option Bool
  deriving Repr, DecidableEq

/-- Defaulting of nil read options in Get and List (lines 160-164 and
235-239): nil becomes Consistent = true. -/
def defaultedReadOptions (opts : Option ReadOptions) : ReadOptions :=
  match opts with
  | none => { consistent := true }
  | some o => o

/-- getKey (lines 182-190): sets ConsistentRead from the (already
defaulted) options. -/
def getKeyRequest (opts : ReadOptions) : GetItemReq :=
  { consistentRead := some opts.consistent }

/-- The GetItem request Get issues for given caller options. -/
def getRequest (opts : Option ReadOptions) : GetItemReq :=
  getKeyRequest (defaultedReadOptions opts)

/-- The GetItem request Exists issues (lines 208-216): the ReadOptions
parameter is discarded (`_`), and the request is built without a
ConsistentRead field. -/
def existsRequest (_ : Option ReadOptions) : GetItemReq :=
  { consistentRead := none }

/-- The effective consistency of a GetItem request: an absent
ConsistentRead field means an eventually consistent read. -/
def effectiveConsistent (r : GetItemReq) : Bool :=
  r.consistentRead.getD false

/-- The ConsistentRead flag the List scan carries (lines 234-251). -/
def listConsistent (opts : Option ReadOptions) : Bool :=
  (defaultedReadOptions opts).consistent

/-- The advisory pre-check shared by AtomicPut (lines 344-347) and
AtomicDelete (lines 422-424): with `previous == nil`, a key that the
consistent pre-read saw as present and not logically expired makes the
operation fail with store.ErrKeyExists before any write is issued. -/
def atomicPrecheckExists (now : Int) (readState : Option Item) (previous : Option KVPair) :
    Bool :=
  match previous, readState with
  | none, some it => !isItemExpired now it
  | _, _ => false

/-- The UpdateItem request AtomicPut builds (lines 349-394): the same
update expression as Put, plus a ConditionExpression iff `previous` is
non-nil (lines 377-386).  With `previous == nil` the field `cond` stays
`none`: the write is issued unconditionally. -/
def atomicPutReq (setValue : Option String) (setTTL : Option Int) (previous : Option KVPair)
    (now : Int) : UpdateReq :=
  { setValue := setValue
    setTTL := setTTL
    cond :=
      match previous with
      | none => none
      | some p => some (CondExp.revAndNotExpired p.lastIndex now) }

/-- The Go triple (ok bool, pair *store.KVPair, err error) of AtomicPut,
together with the per-key backend state after the call. -/
structure AtomicPutResult where
  applied : Bool
  pair : Option KVPair
  err : Option StoreError
  state : Option Item
  deriving Repr, DecidableEq

/-- AtomicPut (dynamodb.go lines 335-411).  `readState` is the item the
consistent pre-read (line 337) saw; `writeState` is the item the
UpdateItem (line 388) executes against; a race-free call has
`readState = writeState`.  ConditionalCheckFailedException is mapped to
store.ErrKeyModified (lines 396-403); on success the ALL_NEW item is
decoded and returned (lines 405-410). -/
def AtomicPut (now : Int) (readState writeState : Option Item) (value : String)
    (previous : Option KVPair) (opts : Option WriteOptions) : AtomicPutResult :=
  if atomicPrecheckExists now readState previous then
    { applied := false, pair := none, err := some StoreError.keyExists, state := writeState }
  else
    match
      execUpdate (atomicPutReq (putSetValue value) (putSetTTL now opts) previous now)
        writeState with
    | (Except.ok it, st) =>
        { applied := true, pair := some (decodeItem it), err := none, state := st }
    | (Except.error DdbError.conditionalCheckFailed, st) =>
        { applied := false, pair := none, err := some StoreError.keyModified, state := st }
    | (Except.error e, st) =>
        { applied := false, pair := none, err := some (StoreError.backend e), state := st }

/-- AtomicDelete (dynamodb.go lines 413-451), with the same two-snapshot
convention as AtomicPut.  The DeleteItem always carries the
ConditionExpression `version = :lastRevision` (line 436), but the
expression attribute value `:lastRevision` is only bound when `previous`
is non-nil (lines 427-429); an unbound reference is rejected by the
service as a validation error.  ConditionalCheckFailedException is mapped
to store.ErrKeyNotFound (lines 441-448).  Returns (ok, err, new state). -/
def AtomicDelete (now : Int) (readState writeState : Option Item)
    (previous : Option KVPair) : Bool × Option StoreError × Option Item :=
  if atomicPrecheckExists now readState previous then
    (false, some StoreError.keyExists, writeState)
  else
    match previous with
    | none => (false, some (StoreError.backend DdbError.validationException), writeState)
    | some p =>
        if evalCond (CondExp.revEq p.lastIndex) writeState then (true, none, none)
        else (false, some StoreError.keyNotFound, writeState)

/-- Unlock (dynamodb.go lines 797-808): issues the fenced AtomicDelete
with `previous = l.last`; any error is returned to the caller as-is and
`l.last` is left untouched; only a successful delete clears `l.last`.
Returns (err, new l.last, new backend state).  (The `unlockCh` send that
stops the hold loop is modelled in the hold-loop event stream.) -/
def Unlock (now : Int) (readState writeState : Option Item) (last : Option KVPair) :
    Option StoreError × Option KVPair × Option Item :=
  match AtomicDelete now readState writeState last with
  | (_, some e, st) => (some e, last, st)
  | (_, none, st) => (none, none, st)

/-- Classification of one tryLock attempt (dynamodb.go lines 810-826). -/
inductive TryLockOutcome where
  | acquired
  | retryLater
  | failed (e : StoreError)
  deriving Repr, DecidableEq

/-- tryLock error handling (lines 812-817): ErrKeyNotFound, ErrKeyModified
and ErrKeyExists from the conditional put are swallowed and reported as a
plain unsuccessful attempt (retry later); any other error is returned to
the caller; a successful put means the lock is acquired. -/
def tryLockClassify (res : AtomicPutResult) : TryLockOutcome :=
  match res.err with
  | some e =>
      if e = StoreError.keyNotFound ∨ e = StoreError.keyModified ∨ e = StoreError.keyExists
      then TryLockOutcome.retryLater
      else TryLockOutcome.failed e
  | none => if res.applied then TryLockOutcome.acquired else TryLockOutcome.retryLater

/-- The retry cadence of the acquire loop: `time.NewTicker(3 * time.Second)`
(line 779). -/
def lockRetryIntervalSeconds : Nat := 3

/-- Events driving the Lock acquire loop (lines 767-795): either a tryLock
attempt completes with the given AtomicPut outcome, or the caller's
context is cancelled. -/
inductive LockEvent where
  | attempt (res : AtomicPutResult)
  | ctxDone
  deriving Repr, DecidableEq

/-- Outcome of running the acquire loop over a finite event trace. -/
inductive LockOutcome where
  /-- tryLock succeeded; `last` is the handle state `l.last` recorded. -/
  | acquiredLock (last : Option KVPair)
  /-- tryLock returned a non-recoverable error: propagated immediately. -/
  | failedLock (e : StoreError)
  /-- ctx.Done fired: ErrLockAcquireCancelled. -/
  | cancelledLock
  /-- trace exhausted with the loop still waiting for the next tick. -/
  | waiting (last : Option KVPair)
  deriving Repr, DecidableEq

/-- Lock (dynamodb.go lines 767-795) run over a finite trace of events:
the first non-recoverable tryLock error is propagated immediately; a
recoverable failure waits for the next 3-second tick and retries;
cancellation yields ErrLockAcquireCancelled. -/
def lockLoop (last : Option KVPair) : List LockEvent → LockOutcome
  | [] => LockOutcome.waiting last
  | LockEvent.ctxDone :: _ => LockOutcome.cancelledLock
  | LockEvent.attempt res :: rest =>
      match tryLockClassify res with
      | TryLockOutcome.acquired => LockOutcome.acquiredLock res.pair
      | TryLockOutcome.failed e => LockOutcome.failedLock e
      | TryLockOutcome.retryLater => lockLoop last rest

/-- The heartbeat cadence of the hold loop: `time.NewTicker(l.ttl / 3)`
(line 842), in the same duration units as the ttl. -/
def holdHeartbeatInterval (ttl : Int) : Int := ttl / 3

/-- The hold closure in holdLock (lines 831-839): one renewal heartbeat,
a race-free AtomicPut with `previous = l.last` and write options TTL =
`l.ttl` against the current backend item.  On success returns the new
`l.last` (the post-write pair) and the new backend state; any error is
returned unchanged. -/
def hold (now : Int) (state : Option Item) (value : String) (ttl : Int)
    (last : Option KVPair) : Except StoreError (Option KVPair × Option Item) :=
  match AtomicPut now state state value last (some { ttl := ttl }) with
  | { applied := _, pair := item, err := none, state := st } => Except.ok (item, st)
  | { applied := _, pair := _, err := some e, state := _ } => Except.error e

/-- Events the hold loop selects over (lines 845-857): a heartbeat tick
(carrying the clock at that tick), the external renew channel, the unlock
channel, and context cancellation. -/
inductive HoldEvent where
  | heartbeat (now : Int)
  | renewSignal
  | unlockSignal
  | ctxDone
  deriving Repr, DecidableEq

/-- Handle-local state of the hold loop: `l.last` and the backend item. -/
structure HoldState where
  last : Option KVPair
  backend : Option Item
  deriving Repr, DecidableEq

/-- holdLock (dynamodb.go lines 828-859) run over a finite event trace.
The Bool is whether the loop has returned — equivalently, by the deferred
close (line 829), whether the lockHeld channel is closed.  A failed
renewal heartbeat and each of the three signal events end the loop; a
successful heartbeat updates `l.last` and continues; an exhausted trace
means the loop is still running (lock still held). -/
def holdLoop (value : String) (ttl : Int) : HoldState → List HoldEvent → HoldState × Bool
  | st, [] => (st, false)
  | st, HoldEvent.heartbeat now :: rest =>
      match hold now st.backend value ttl st.last with
      | Except.error _ => (st, true)
      | Except.ok (item, b) => holdLoop value ttl { last := item, backend := b } rest
  | st, HoldEvent.renewSignal :: _ => (st, true)
  | st, HoldEvent.unlockSignal :: _ => (st, true)
  | st, HoldEvent.ctxDone :: _ => (st, true)

/-- DeleteTreeTimeoutSeconds (dynamodb.go lines 34-36). -/
def DeleteTreeTimeoutSeconds : Nat := 30

/-- The resubmission cadence of retryDeleteTree:
`time.NewTicker(1 * time.Second)` (line 729). -/
def deleteTreeTickSeconds : Nat := 1

/-- Outcome of retryDeleteTree. -/
inductive DTOutcome where
  | success
  /-- ErrDeleteTreeTimeout. -/
  | timeout
  /-- A BatchWriteItem call itself failed: returned unchanged. -/
  | backendErr (e : DdbError)
  deriving Repr, DecidableEq

/-- The BatchWriteItem loop of retryDeleteTree (dynamodb.go lines
711-754), in discrete 1-second time.  `resps i` is the backend's reply to
the i-th BatchWriteItem call (the unprocessed-items subset, or a call
error); `fuel` is the number of calls that may still happen before the
wall-clock deadline fires; `pending` is the batch being submitted.
Returns the outcome together with the trace of submitted batches. -/
def dtLoop (resps : Nat → Except DdbError (List String)) :
    Nat → Nat → List String → DTOutcome × List (List String)
  | _, 0, _ => (DTOutcome.timeout, [])
  | i, f + 1, pending =>
      match resps i with
      | Except.error e => (DTOutcome.backendErr e, [pending])
      | Except.ok un =>
          if un = [] then (DTOutcome.success, [pending])
          else
            let r := dtLoop resps (i + 1) f un
            (r.1, pending :: r.2)

/-- retryDeleteTree (dynamodb.go lines 711-754): the initial
BatchWriteItem (call 0, before the timeout timer starts), then one
resubmission of exactly the previously reported unprocessed subset per
1-second tick, for at most DeleteTreeTimeoutSeconds ticks before the
30-second timeout channel fires — DeleteTreeTimeoutSeconds + 1 calls in
all.  Success as soon as a reply reports an empty unprocessed subset;
ErrDeleteTreeTimeout when the deadline elapses first. -/
def retryDeleteTree (resps : Nat → Except DdbError (List String)) (items : List String) :
    DTOutcome × List (List String) :=
  dtLoop resps 0 (DeleteTreeTimeoutSeconds + 1) items

/-- The revision stored under the key: 0 when the item is physically
absent (the value DynamoDB's ADD starts from). -/
def revOf : Option Item → Nat
  | none => 0
  | some it => it.revision

/-- One successful write to the key, as observed on the per-key state:
either a Put (always succeeds) or an AtomicPut that reported
`applied = true` (writing against this state; the pre-read snapshot and
remaining arguments are arbitrary). -/
inductive SuccWrite : Option Item → Option Item → Prop where
  | putStep (now : Int) (v : String) (o : Option WriteOptions) (s : Option Item) :
      SuccWrite s (Put now s v o)
  | casStep (now : Int) (rs : Option Item) (v : String) (p : Option KVPair)
      (o : Option WriteOptions) (s : Option Item)
      (h : (AtomicPut now rs s v p o).applied = true) :
      SuccWrite s (AtomicPut now rs s v p o).state

/-! Helper lemmas shared across the development. -/

lemma atomicPrecheckExists_somePrevious (now : Int) (rs : Option Item) (p : KVPair) :
    atomicPrecheckExists now rs (some p) = false := by
  cases rs <;> rfl

lemma atomicPrecheckExists_noneRead (now : Int) (prev : Option KVPair) :
    atomicPrecheckExists now none prev = false := by
  cases prev <;> rfl

lemma evalCond_revAndNotExpired_iff (r : Nat) (now : Int) (ws : Option Item) :
    evalCond (CondExp.revAndNotExpired r now) ws = true ↔
      ∃ it, ws = some it ∧ it.revision = r ∧
        (it.expirationTime = none ∨ ∃ t, it.expirationTime = some t ∧ now < t) := by
  cases ws with
  | none => simp [evalCond]
  | some it =>
    cases h : it.expirationTime with
    | none => simp [evalCond, h]
    | some t => simp [evalCond, h]

lemma AtomicPut_somePrevious_eq (now : Int) (rs ws : Option Item) (v : String)
    (p : KVPair) (o : Option WriteOptions) :
    AtomicPut now rs ws v (some p) o =
      if evalCond (CondExp.revAndNotExpired p.lastIndex now) ws then
        { applied := true
          pair := some (decodeItem (updateItemApply ws (putSetValue v) (putSetTTL now o)))
          err := none
          state := some (updateItemApply ws (putSetValue v) (putSetTTL now o)) }
      else
        { applied := false, pair := none, err := some StoreError.keyModified, state := ws } := by
  cases hc : evalCond (CondExp.revAndNotExpired p.lastIndex now) ws <;>
    simp [AtomicPut, atomicPrecheckExists_somePrevious, atomicPutReq, execUpdate, hc]

lemma AtomicPut_nonePrevious_eq (now : Int) (rs ws : Option Item) (v : String)
    (o : Option WriteOptions) (hpre : atomicPrecheckExists now rs none = false) :
    AtomicPut now rs ws v none o =
      { applied := true
        pair := some (decodeItem (updateItemApply ws (putSetValue v) (putSetTTL now o)))
        err := none
        state := some (updateItemApply ws (putSetValue v) (putSetTTL now o)) } := by
  simp [AtomicPut, hpre, atomicPutReq, execUpdate]

lemma revOf_updateItemApply (s : Option Item) (v : Option String) (t : Option Int) :
    revOf (some (updateItemApply s v t)) = revOf s + 1 := by
  cases s <;> rfl

lemma Put_state_eq (now : Int) (s : Option Item) (v : String) (o : Option WriteOptions) :
    Put now s v o = some (updateItemApply s (putSetValue v) (putSetTTL now o)) := rfl

lemma AtomicPut_applied_state (now : Int) (rs ws : Option Item) (v : String)
    (p : Option KVPair) (o : Option WriteOptions)
    (h : (AtomicPut now rs ws v p o).applied = true) :
    (AtomicPut now rs ws v p o).state =
      some (updateItemApply ws (putSetValue v) (putSetTTL now o)) := by
  cases p with
  | none =>
    by_cases hpre : atomicPrecheckExists now rs none = true
    · simp [AtomicPut, hpre] at h
    · rw [AtomicPut_nonePrevious_eq now rs ws v o (by simpa using hpre)]
  | some q =>
    rw [AtomicPut_somePrevious_eq] at h ⊢
    cases hc : evalCond (CondExp.revAndNotExpired q.lastIndex now) ws <;> simp [hc] at h ⊢

lemma succWrite_revOf {s s' : Option Item} (h : SuccWrite s s') : revOf s' = revOf s + 1 := by
  cases h with
  | putStep now v o s => rw [Put_state_eq, revOf_updateItemApply]
  | casStep now rs v p o s hap =>
    rw [AtomicPut_applied_state now rs s v p o hap, revOf_updateItemApply]

/-! Claim theorems. -/

/-- Claim C1 is false on the code: with `previous = nil` the UpdateItem that
AtomicPut issues carries no ConditionExpression at all, so the read-then-decide
pre-check is the sole guard of the absence precondition.  Concretely, a
writer whose consistent pre-read saw the key absent still applies its write
against a state where the key is present and not logically expired (two
racing absent-expected puts both report applied = true). -/
theorem claim1_counterexample :
    (atomicPutReq (putSetValue "b") (putSetTTL 0 none) none 0).cond = none ∧
    (AtomicPut 0 none none "a" none none).applied = true ∧
    (AtomicPut 0 none none "a" none none).state = some ⟨1, some "a", none⟩ ∧
    isItemExpired 0 ⟨1, some "a", none⟩ = false ∧
    (AtomicPut 0 none (some ⟨1, some "a", none⟩) "b" none none).applied = true :=
  ⟨rfl, rfl, rfl, rfl, rfl⟩

/-- Claim C1 amended: for every AtomicPut call with `previous = nil`, the
absence precondition is enforced only by the advisory read-then-decide
pre-check (the consistent Get followed by the KeyExists test); the backend
write the operation then issues carries no atomic condition, and applies
unconditionally against whatever state it meets. -/
theorem atomicPut_nilPrevious_semantics (now : Int) (rs ws : Option Item) (v : String)
    (o : Option WriteOptions) :
    (atomicPutReq (putSetValue v) (putSetTTL now o) none now).cond = none ∧
    (∀ it, rs = some it → isItemExpired now it = false →
      AtomicPut now rs ws v none o =
        { applied := false, pair := none, err := some StoreError.keyExists, state := ws }) ∧
    (atomicPrecheckExists now rs none = false →
      AtomicPut now rs ws v none o =
        { applied := true
          pair := some (decodeItem (updateItemApply ws (putSetValue v) (putSetTTL now o)))
          err := none
          state := some (updateItemApply ws (putSetValue v) (putSetTTL now o)) }) := by
  refine ⟨rfl, ?_, ?_⟩
  · intro it hrs hexp
    subst hrs
    simp [AtomicPut, atomicPrecheckExists, hexp]
  · intro hpre
    exact AtomicPut_nonePrevious_eq now rs ws v o hpre

/-- Witness for the amended claim C1 at a concrete input. -/
theorem atomicPut_nilPrevious_semantics_witness :
    AtomicPut 7 (some ⟨3, some "x", none⟩) (some ⟨3, some "x", none⟩) "y" none none =
      { applied := false, pair := none, err := some StoreError.keyExists
        state := some ⟨3, some "x", none⟩ } :=
  (atomicPut_nilPrevious_semantics 7 (some ⟨3, some "x", none⟩) (some ⟨3, some "x", none⟩)
    "y" none).2.1 ⟨3, some "x", none⟩ rfl rfl

/-- Claim C2: AtomicPut with `previous` at revision R succeeds iff the stored
revision equals R and the item has no expiration attribute or its expiration
has not yet elapsed; a failed conditional check returns applied = false with
store.ErrKeyModified and leaves the item untouched; success increments the
stored revision by 1 and returns the post-write item. -/
theorem atomicPut_revisionCheck_semantics (now : Int) (rs ws : Option Item) (v : String)
    (o : Option WriteOptions) (p : KVPair) :
    ((AtomicPut now rs ws v (some p) o).applied = true ↔
      ∃ it, ws = some it ∧ it.revision = p.lastIndex ∧
        (it.expirationTime = none ∨ ∃ t, it.expirationTime = some t ∧ now < t)) ∧
    ((AtomicPut now rs ws v (some p) o).applied = false →
      AtomicPut now rs ws v (some p) o =
        { applied := false, pair := none, err := some StoreError.keyModified, state := ws }) ∧
    ((AtomicPut now rs ws v (some p) o).applied = true →
      AtomicPut now rs ws v (some p) o =
        { applied := true
          pair := some (decodeItem (updateItemApply ws (putSetValue v) (putSetTTL now o)))
          err := none
          state := some (updateItemApply ws (putSetValue v) (putSetTTL now o)) } ∧
      revOf (AtomicPut now rs ws v (some p) o).state = p.lastIndex + 1) := by
  rw [AtomicPut_somePrevious_eq]
  cases hc : evalCond (CondExp.revAndNotExpired p.lastIndex now) ws with
  | false =>
    refine ⟨?_, by simp, by simp⟩
    rw [← evalCond_revAndNotExpired_iff p.lastIndex now ws]
    simp [hc]
  | true =>
    refine ⟨?_, by simp, ?_⟩
    · rw [← evalCond_revAndNotExpired_iff p.lastIndex now ws]
      simp [hc]
    · intro _
      refine ⟨by simp, ?_⟩
      have hws := (evalCond_revAndNotExpired_iff p.lastIndex now ws).mp hc
      obtain ⟨it, hw, hrev, -⟩ := hws
      subst hw
      simp [revOf, updateItemApply, hrev]

/-- Witness for claim C2 at a concrete input: stored revision 5, expected 5,
no expiration ⇒ applied, post-write revision 6. -/
theorem atomicPut_revisionCheck_semantics_witness :
    (AtomicPut 10 (some ⟨5, some "x", none⟩) (some ⟨5, some "x", none⟩) "z"
        (some ⟨"y", 5⟩) none).applied = true ∧
    revOf (AtomicPut 10 (some ⟨5, some "x", none⟩) (some ⟨5, some "x", none⟩) "z"
        (some ⟨"y", 5⟩) none).state = 5 + 1 :=
  ⟨(atomicPut_revisionCheck_semantics 10 (some ⟨5, some "x", none⟩)
      (some ⟨5, some "x", none⟩) "z" none ⟨"y", 5⟩).1.mpr
      ⟨⟨5, some "x", none⟩, rfl, rfl, Or.inl rfl⟩,
   ((atomicPut_revisionCheck_semantics 10 (some ⟨5, some "x", none⟩)
      (some ⟨5, some "x", none⟩) "z" none ⟨"y", 5⟩).2.2 rfl).2⟩

/-- Claim C3 is false on the code: AtomicDelete's condition has no
expiration conjunct, so the delete succeeds against a logically expired
item whose revision matches; and a revision mismatch yields
store.ErrKeyNotFound, not store.ErrKeyModified. -/
theorem claim3_counterexample :
    isItemExpired 10 ⟨5, some "v", some 3⟩ = true ∧
    AtomicDelete 10 (some ⟨5, some "v", some 3⟩) (some ⟨5, some "v", some 3⟩)
      (some ⟨"v", 5⟩) = (true, none, none) ∧
    (AtomicDelete 10 (some ⟨7, some "v", none⟩) (some ⟨7, some "v", none⟩)
      (some ⟨"v", 5⟩)).2.1 = some StoreError.keyNotFound :=
  ⟨rfl, rfl, rfl⟩

/-- Claim C3 amended: AtomicDelete with expected revision R succeeds iff the
stored revision equals R — with no expiration conjunct, so a logically
expired item whose revision matches is deleted; success removes the item;
every conditional-check failure (revision mismatch, or key already absent)
yields store.ErrKeyNotFound, never KeyModified, and leaves the item
untouched. -/
theorem atomicDelete_semantics (now : Int) (rs ws : Option Item) (p : KVPair) :
    ((AtomicDelete now rs ws (some p)).1 = true ↔
      ∃ it, ws = some it ∧ it.revision = p.lastIndex) ∧
    ((AtomicDelete now rs ws (some p)).1 = true →
      AtomicDelete now rs ws (some p) = (true, none, none)) ∧
    ((AtomicDelete now rs ws (some p)).1 = false →
      AtomicDelete now rs ws (some p) = (false, some StoreError.keyNotFound, ws)) := by
  have hpre := atomicPrecheckExists_somePrevious now rs p
  cases hc : evalCond (CondExp.revEq p.lastIndex) ws with
  | false =>
    refine ⟨?_, ?_, ?_⟩ <;> simp [AtomicDelete, hpre, hc]
    cases ws with
    | none => simp
    | some it =>
      simp [evalCond] at hc
      simp [hc]
  | true =>
    refine ⟨?_, ?_, ?_⟩ <;> simp [AtomicDelete, hpre, hc]
    cases ws with
    | none => simp [evalCond] at hc
    | some it =>
      simp [evalCond] at hc
      simp [hc]

/-- Witness for the amended claim C3: matching revision on an expired item
deletes it; a mismatch returns NotFound with the item untouched. -/
theorem atomicDelete_semantics_witness :
    AtomicDelete 10 (some ⟨5, some "v", some 3⟩) (some ⟨5, some "v", some 3⟩)
      (some ⟨"v", 5⟩) = (true, none, none) ∧
    AtomicDelete 10 (some ⟨7, some "v", none⟩) (some ⟨7, some "v", none⟩)
      (some ⟨"v", 5⟩) = (false, some StoreError.keyNotFound, some ⟨7, some "v", none⟩) :=
  ⟨(atomicDelete_semantics 10 (some ⟨5, some "v", some 3⟩) (some ⟨5, some "v", some 3⟩)
      ⟨"v", 5⟩).2.1 rfl,
   (atomicDelete_semantics 10 (some ⟨7, some "v", none⟩) (some ⟨7, some "v", none⟩)
      ⟨"v", 5⟩).2.2 rfl⟩

/-- Claim C4 is false on the code: when the fenced delete fails because the
lease was already stolen (conditional check fails, surfaced by AtomicDelete
as store.ErrKeyNotFound), Unlock returns that error to the caller and
leaves l.last unchanged instead of clearing it. -/
theorem claim4_counterexample :
    (Unlock 0 (some ⟨7, some "w", none⟩) (some ⟨7, some "w", none⟩) (some ⟨"h", 2⟩)).1
      = some StoreError.keyNotFound ∧
    (Unlock 0 (some ⟨7, some "w", none⟩) (some ⟨7, some "w", none⟩) (some ⟨"h", 2⟩)).2.1
      = some ⟨"h", 2⟩ :=
  ⟨rfl, rfl⟩

/-- Claim C4 amended: Unlock propagates every error of the fenced
AtomicDelete (which reports a stolen or expired lease as NotFound) to the
caller and leaves l.last unchanged; l.last is cleared only when the delete
succeeds.  The fenced delete does remain safe: against a lease held at a
different revision it is a no-op that leaves the new holder's item
untouched. -/
theorem unlock_semantics (now : Int) (rs ws : Option Item) (last : Option KVPair) :
    (∀ e st, AtomicDelete now rs ws last = (false, some e, st) →
      Unlock now rs ws last = (some e, last, st)) ∧
    ((AtomicDelete now rs ws last).2.1 = none →
      Unlock now rs ws last = (none, none, none)) ∧
    (∀ p it, last = some p → ws = some it → it.revision ≠ p.lastIndex →
      Unlock now rs ws last = (some StoreError.keyNotFound, last, ws)) := by
  refine ⟨?_, ?_, ?_⟩
  · intro e st h
    simp [Unlock, h]
  · intro h
    have hAD : AtomicDelete now rs ws last = (true, none, none) := by
      rcases last with - | p
      · exfalso
        rcases hpre : atomicPrecheckExists now rs none with - | - <;>
          simp [AtomicDelete, hpre] at h
      · rcases hc : evalCond (CondExp.revEq p.lastIndex) ws with - | - <;>
          simp [AtomicDelete, atomicPrecheckExists_somePrevious, hc] at h ⊢
    simp [Unlock, hAD]
  · intro p it hlast hws hrev
    subst hlast
    subst hws
    have hc : evalCond (CondExp.revEq p.lastIndex) (some it) = false := by
      simp [evalCond, hrev]
    simp [Unlock, AtomicDelete, atomicPrecheckExists_somePrevious, hc]

/-- Witness for the amended claim C4: a stale fencing token makes Unlock
surface NotFound, keep l.last, and leave the new holder's item intact. -/
theorem unlock_semantics_witness :
    Unlock 0 (some ⟨7, some "w", none⟩) (some ⟨7, some "w", none⟩) (some ⟨"h", 2⟩)
      = (some StoreError.keyNotFound, some ⟨"h", 2⟩, some ⟨7, some "w", none⟩) :=
  (unlock_semantics 0 (some ⟨7, some "w", none⟩) (some ⟨7, some "w", none⟩)
      (some ⟨"h", 2⟩)).2.2 ⟨"h", 2⟩ ⟨7, some "w", none⟩ rfl rfl (by decide)

/-- Claim C5: during lock acquisition every KeyExists, KeyModified or
NotFound error from the conditional put is recovered locally — the attempt
is classified retry-later and the acquire loop simply continues to the next
fixed-interval tick — while any other backend error makes the loop return
that error to the caller immediately. -/
theorem lock_acquire_error_policy (last : Option KVPair) (rest : List LockEvent)
    (res : AtomicPutResult) :
    ((res.err = some StoreError.keyNotFound ∨ res.err = some StoreError.keyModified ∨
        res.err = some StoreError.keyExists) →
      tryLockClassify res = TryLockOutcome.retryLater ∧
      lockLoop last (LockEvent.attempt res :: rest) = lockLoop last rest) ∧
    (∀ e, res.err = some e → e ≠ StoreError.keyNotFound → e ≠ StoreError.keyModified →
      e ≠ StoreError.keyExists →
      tryLockClassify res = TryLockOutcome.failed e ∧
      lockLoop last (LockEvent.attempt res :: rest) = LockOutcome.failedLock e) := by
  constructor
  · intro h
    have hcl : tryLockClassify res = TryLockOutcome.retryLater := by
      rcases h with h | h | h <;> simp [tryLockClassify, h]
    exact ⟨hcl, by simp [lockLoop, hcl]⟩
  · intro e he h1 h2 h3
    have hcl : tryLockClassify res = TryLockOutcome.failed e := by
      simp [tryLockClassify, he, h1, h2, h3]
    exact ⟨hcl, by simp [lockLoop, hcl]⟩

/-- Witness for claim C5: a KeyModified attempt retries; an opaque backend
error propagates immediately. -/
theorem lock_acquire_error_policy_witness :
    lockLoop none (LockEvent.attempt ⟨false, none, some StoreError.keyModified, none⟩ ::
        []) = lockLoop none [] ∧
    lockLoop none (LockEvent.attempt
        ⟨false, none, some (StoreError.backend (DdbError.serviceError 7)), none⟩ :: []) =
      LockOutcome.failedLock (StoreError.backend (DdbError.serviceError 7)) :=
  ⟨((lock_acquire_error_policy none [] ⟨false, none, some StoreError.keyModified, none⟩).1
      (Or.inr (Or.inl rfl))).2,
   ((lock_acquire_error_policy none []
      ⟨false, none, some (StoreError.backend (DdbError.serviceError 7)), none⟩).2
      (StoreError.backend (DdbError.serviceError 7)) rfl
      (by decide) (by decide) (by decide)).2⟩

/-- Claim C7: while the lock is held the renewal heartbeat fires every
ttl/3 and re-issues the conditional put with expected = the last revision
this handle wrote (the condition of the issued request is exactly
revision = l.last.lastIndex together with the not-expired conjunct) and a
refreshed expiration of now + ttl; a successful renewal updates l.last to
the post-write item and the loop continues; a failed renewal of any kind
ends the hold loop without retry, which closes the lockHeld channel. -/
theorem holdLock_renewal_spec (value : String) (ttl : Int) (st : HoldState)
    (rest : List HoldEvent) (now : Int) (p : KVPair) (hlast : st.last = some p)
    (httl : 0 < ttl) :
    holdHeartbeatInterval ttl = ttl / 3 ∧
    (atomicPutReq (putSetValue value) (putSetTTL now (some { ttl := ttl })) st.last
        now).cond = some (CondExp.revAndNotExpired p.lastIndex now) ∧
    putSetTTL now (some { ttl := ttl }) = some (now + ttl) ∧
    (∀ e, hold now st.backend value ttl st.last = Except.error e →
      holdLoop value ttl st (HoldEvent.heartbeat now :: rest) = (st, true)) ∧
    (∀ item b, hold now st.backend value ttl st.last = Except.ok (item, b) →
      holdLoop value ttl st (HoldEvent.heartbeat now :: rest)
        = holdLoop value ttl { last := item, backend := b } rest ∧
      item = some (decodeItem (updateItemApply st.backend (putSetValue value)
        (some (now + ttl)))) ∧
      b = some (updateItemApply st.backend (putSetValue value) (some (now + ttl)))) := by
  have httlSet : putSetTTL now (some { ttl := ttl }) = some (now + ttl) := by
    simp [putSetTTL, httl]
  refine ⟨rfl, by rw [hlast]; rfl, httlSet, ?_, ?_⟩
  · intro e h
    simp [holdLoop, h]
  · intro item b h
    refine ⟨by simp [holdLoop, h], ?_⟩
    rw [hlast] at h
    rw [show hold now st.backend value ttl (some p) =
        match AtomicPut now st.backend st.backend value (some p) (some { ttl := ttl }) with
        | { applied := _, pair := item, err := none, state := s } => Except.ok (item, s)
        | { applied := _, pair := _, err := some e, state := _ } => Except.error e
      from rfl] at h
    rw [AtomicPut_somePrevious_eq] at h
    cases hc : evalCond (CondExp.revAndNotExpired p.lastIndex now) st.backend <;>
      rw [hc] at h <;> simp at h
    rw [httlSet] at h
    exact ⟨h.1.symm, h.2.symm⟩

/-- Witness for claim C7: a heartbeat whose fencing token is stale (stored
revision 2, l.last revision 1) fails the renewal and ends the hold loop
with the lockHeld channel closed. -/
theorem holdLock_renewal_spec_witness :
    holdLoop "h" 9 ⟨some ⟨"h", 1⟩, some ⟨2, some "h", some 100⟩⟩
        [HoldEvent.heartbeat 5] =
      (⟨some ⟨"h", 1⟩, some ⟨2, some "h", some 100⟩⟩, true) :=
  (holdLock_renewal_spec "h" 9 ⟨some ⟨"h", 1⟩, some ⟨2, some "h", some 100⟩⟩ []
      5 ⟨"h", 1⟩ rfl (by decide)).2.2.2.1 StoreError.keyModified rfl

lemma dtLoop_success (u : Nat → List String) (k : Nat) :
    ∀ i f pending, k < f → u (i + k) = [] → (∀ j, j < k → u (i + j) ≠ []) →
      dtLoop (fun n => Except.ok (u n)) i f pending =
        (DTOutcome.success, pending :: (List.range k).map (fun j => u (i + j))) := by
  induction k with
  | zero =>
    intro i f pending hf hempty _
    match f, hf with
    | f + 1, _ =>
      rw [Nat.add_zero] at hempty
      simp [dtLoop, hempty]
  | succ k ih =>
    intro i f pending hf hempty hne
    match f, hf with
    | f + 1, hf =>
      have h0 : u i ≠ [] := by
        have := hne 0 (Nat.succ_pos k)
        rwa [Nat.add_zero] at this
      have hrec := ih (i + 1) f (u i) (by omega)
        (by rw [show i + 1 + k = i + (k + 1) by omega]; exact hempty)
        (fun j hj => by
          rw [show i + 1 + j = i + (j + 1) by omega]
          exact hne (j + 1) (by omega))
      have hmap : (List.range (k + 1)).map (fun j => u (i + j)) =
          u i :: (List.range k).map (fun j => u (i + 1 + j)) := by
        rw [List.range_succ_eq_map, List.map_cons, List.map_map]
        refine congrArg₂ _ (by rw [Nat.add_zero]) (List.map_congr_left ?_)
        intro j _
        show u (i + (j + 1)) = u (i + 1 + j)
        congr 1
        omega
      simp [dtLoop, h0, hrec, hmap]

lemma dtLoop_timeout (u : Nat → List String) :
    ∀ f i pending, (∀ j, j < f → u (i + j) ≠ []) →
      (dtLoop (fun n => Except.ok (u n)) i f pending).1 = DTOutcome.timeout := by
  intro f
  induction f with
  | zero => intro i pending _; rfl
  | succ f ih =>
    intro i pending hne
    have h0 : u i ≠ [] := by
      have := hne 0 (Nat.succ_pos f)
      rwa [Nat.add_zero] at this
    have hrec := ih (i + 1) (u i) (fun j hj => by
      rw [show i + 1 + j = i + (j + 1) by omega]
      exact hne (j + 1) (by omega))
    simp [dtLoop, h0, hrec]

/-- Claim C6: retryDeleteTree, after the initial batch delete (call 0),
resubmits exactly the backend-reported unprocessed subset on each 1-second
tick (the trace of submitted batches is the initial batch followed by the
successive unprocessed replies), returns success as soon as a reply's
unprocessed subset is empty, and returns ErrDeleteTreeTimeout when the
subset has not drained by the time the 30-second deadline fires (no more
than DeleteTreeTimeoutSeconds resubmissions after the initial call). -/
theorem retryDeleteTree_spec (u : Nat → List String) (items : List String) :
    (∀ k, k ≤ DeleteTreeTimeoutSeconds → u k = [] → (∀ j, j < k → u j ≠ []) →
      retryDeleteTree (fun n => Except.ok (u n)) items =
        (DTOutcome.success, items :: (List.range k).map u)) ∧
    ((∀ j, j ≤ DeleteTreeTimeoutSeconds → u j ≠ []) →
      (retryDeleteTree (fun n => Except.ok (u n)) items).1 = DTOutcome.timeout) := by
  constructor
  · intro k hk hempty hne
    have h := dtLoop_success u k 0 (DeleteTreeTimeoutSeconds + 1) items (by omega)
      (by rwa [Nat.zero_add]) (fun j hj => by rw [Nat.zero_add]; exact hne j hj)
    rw [retryDeleteTree, h]
    refine congrArg _ (congrArg _ (List.map_congr_left ?_))
    intro j _
    rw [Nat.zero_add]
  · intro hne
    exact dtLoop_timeout u (DeleteTreeTimeoutSeconds + 1) 0 items
      (fun j hj => by rw [Nat.zero_add]; exact hne j (by omega))

/-- Witness for claim C6: call 0 reports one unprocessed key, the tick-1
resubmission of exactly that key drains, and the operation succeeds after
one second with the trace of submitted batches as stated. -/
theorem retryDeleteTree_spec_witness :
    retryDeleteTree
        (fun n => Except.ok (if n = 0 then ["a"] else []))
        ["a", "b"] =
      (DTOutcome.success, [["a", "b"], ["a"]]) :=
  (retryDeleteTree_spec (fun n => if n = 0 then ["a"] else []) ["a", "b"]).1 1
    (by decide) rfl
    (fun j hj => by
      have hj0 : j = 0 := by omega
      rw [hj0]
      exact fun h => by cases h)

/-- Claim C8: every successful write — an unconditional Put or an applied
AtomicPut, including writes with an empty or unchanged value — increments
the stored revision by exactly 1 (a first write to a fresh key yields
revision 1), so any chain of successive successful writes observes
strictly increasing revisions. -/
theorem revision_monotonicity :
    (∀ now s v o, revOf (Put now s v o) = revOf s + 1) ∧
    (∀ now v o, revOf (Put now none v o) = 1) ∧
    (∀ now rs ws v p o, (AtomicPut now rs ws v p o).applied = true →
      revOf (AtomicPut now rs ws v p o).state = revOf ws + 1) ∧
    (∀ l : List (Option Item), List.Chain' SuccWrite l →
      List.Chain' (fun a b => revOf a < revOf b) l) := by
  refine ⟨?_, ?_, ?_, ?_⟩
  · intro now s v o
    rw [Put_state_eq, revOf_updateItemApply]
  · intro now v o
    rw [Put_state_eq, revOf_updateItemApply]
    rfl
  · intro now rs ws v p o h
    rw [AtomicPut_applied_state now rs ws v p o h, revOf_updateItemApply]
  · intro l hl
    exact hl.imp (fun a b h => by rw [succWrite_revOf h]; omega)

/-- Witness for claim C8: a fresh key's first write has revision 1, an
empty-value write still bumps the revision, and a two-write chain is
strictly increasing. -/
theorem revision_monotonicity_witness :
    revOf (Put 0 none "a" none) = 1 ∧
    revOf (Put 1 (Put 0 none "a" none) "" none) = revOf (Put 0 none "a" none) + 1 ∧
    List.Chain' (fun a b => revOf a < revOf b) [none, Put 0 none "a" none] :=
  ⟨revision_monotonicity.2.1 0 "a" none,
   revision_monotonicity.1 1 (Put 0 none "a" none) "" none,
   revision_monotonicity.2.2.2 [none, Put 0 none "a" none]
     (List.chain'_pair.mpr (SuccWrite.putStep 0 "a" none none))⟩

/-- Claim C9: Get returns NotFound for a physically absent key and for a
logically expired item (which is still physically present); an item with
no expiration attribute is never expired; a present unexpired item is
returned; Exists likewise reports false exactly for absent or expired
keys; expiration means the stored timestamp is strictly in the past. -/
theorem get_exists_expiration_semantics (now : Int) (it : Item) (t : Int) :
    Get now none = Except.error StoreError.keyNotFound ∧
    existsKey now none = false ∧
    (isItemExpired now it = true → Get now (some it) = Except.error StoreError.keyNotFound) ∧
    (isItemExpired now it = true → existsKey now (some it) = false) ∧
    (it.expirationTime = none → isItemExpired now it = false) ∧
    (isItemExpired now it = false →
      Get now (some it) = Except.ok (decodeItem it) ∧ existsKey now (some it) = true) ∧
    (it.expirationTime = some t → (isItemExpired now it = true ↔ t < now)) := by
  refine ⟨rfl, rfl, ?_, ?_, ?_, ?_, ?_⟩
  · intro h
    simp [Get, h]
  · intro h
    simp [existsKey, h]
  · intro h
    simp [isItemExpired, h]
  · intro h
    exact ⟨by simp [Get, h], by simp [existsKey, h]⟩
  · intro h
    simp [isItemExpired, h]

/-- Witness for claim C9: an item whose expiration timestamp 3 is before
now = 10 is masked by Get and Exists although physically present. -/
theorem get_exists_expiration_semantics_witness :
    Get 10 (some ⟨3, some "v", some 3⟩) = Except.error StoreError.keyNotFound ∧
    existsKey 10 (some ⟨3, some "v", some 3⟩) = false :=
  ⟨(get_exists_expiration_semantics 10 ⟨3, some "v", some 3⟩ 3).2.2.1 (by decide),
   (get_exists_expiration_semantics 10 ⟨3, some "v", some 3⟩ 3).2.2.2.1 (by decide)⟩

/-- Claim C10: Exists discards its ReadOptions argument — the GetItem
request it issues is identical for every options value and carries no
ConsistentRead field, so its effective read consistency is false
(eventually consistent) — unlike Get and List, which default to consistent
reads when options are nil. -/
theorem exists_ignores_readOptions (opts opts' : Option ReadOptions) :
    existsRequest opts = existsRequest opts' ∧
    (existsRequest opts).consistentRead = none ∧
    effectiveConsistent (existsRequest opts) = false ∧
    effectiveConsistent (getRequest none) = true ∧
    listConsistent none = true :=
  ⟨rfl, rfl, rfl, rfl, rfl⟩

end Ddb
